import Mathlib

/-!
Shallow embedding of the Azazel_emergent web client (React/JS) and of the
backend contracts its spec describes.  Pure fragments of the JS source are
translated into Lean definitions; component state updates become explicit
state-passing functions on record types.
-/

namespace Azazel

/-! ### JavaScript string primitives used by the client code -/

/-- Whitespace test used by the embeddings of `String.prototype.trim` and
`parseInt` (both skip JS whitespace). -/
def isJsWs (c : Char) : Bool := c.isWhitespace

/-- Embedding of `String.prototype.trim` on character lists: drop whitespace
from the front, then from the back. -/
def trimChars (l : List Char) : List Char :=
  List.rdropWhile isJsWs (List.dropWhile isJsWs l)

/-- Embedding of `String.prototype.trim`. -/
def jsTrim (s : String) : String := String.mk (trimChars s.data)

/-- Numeric value of a run of decimal digits. -/
def digitsVal (l : List Char) : Nat :=
  l.foldl (fun acc c => acc * 10 + (c.toNat - 48)) 0

/-- Leading decimal-digit run of a character list, as a number; `none` when
there is no leading digit (the NaN case of `parseInt`). -/
def parseDigits (l : List Char) : Option Nat :=
  let ds := l.takeWhile Char.isDigit
  if ds.isEmpty then none else some (digitsVal ds)

/-- Embedding of JavaScript `parseInt(s)` in its default radix-10 path:
skip leading whitespace, read an optional sign and then the longest leading
digit run; `none` models NaN. -/
def jsParseInt (s : String) : Option Int :=
  match s.data.dropWhile isJsWs with
  | '-' :: rest => (parseDigits rest).map (fun n => -(n : Int))
  | '+' :: rest => (parseDigits rest).map (fun n => (n : Int))
  | l => (parseDigits l).map (fun n => (n : Int))

/-! ### JobDiscovery.js — the Job Discovery form

State of the `searchParams` React state hook, the event handlers
`handleKeywordAdd`, `handleKeywordRemove`, `handlePlatformToggle`, the
controlled-input `onChange` updaters, the request body built by
`handleSearch`, and the search button's `disabled` expression. -/

structure SearchParams where
  keywords : List String
  location : String
  jobType : String
  platforms : List String
  maxResultsPerPlatform : Int
deriving Repr, DecidableEq

/-- The `useState` initialiser of `searchParams` (JobDiscovery.js lines 8-14). -/
def initialSearchParams : SearchParams :=
  { keywords := ["machine learning", "AI", "translation", "linguistic",
      "quality assessment"]
    location := ""
    jobType := "remote"
    platforms := []
    maxResultsPerPlatform := 50 }

/-- The seven platform ids offered by the form (JobDiscovery.js lines 19-27). -/
def knownPlatformIds : List String :=
  ["flexjobs", "remotive", "weworkremotely", "remote_co", "contra", "toptal",
    "upwork"]

/-- `handleKeywordAdd` (JobDiscovery.js lines 29-37): append the trimmed new
keyword when it is truthy (non-empty after trimming) and not already present. -/
def handleKeywordAdd (p : SearchParams) (newKeyword : String) : SearchParams :=
  let t := jsTrim newKeyword
  if t ≠ "" ∧ ¬ t ∈ p.keywords then
    { p with keywords := p.keywords ++ [t] }
  else p

/-- `handleKeywordRemove` (JobDiscovery.js lines 39-44): keep the keywords
different from the removed one. -/
def handleKeywordRemove (p : SearchParams) (keyword : String) : SearchParams :=
  { p with keywords := p.keywords.filter (fun k => k ≠ keyword) }

/-- `handlePlatformToggle` (JobDiscovery.js lines 46-53): remove the id when
present, append it when absent. -/
def handlePlatformToggle (p : SearchParams) (platformId : String) : SearchParams :=
  { p with platforms :=
      if platformId ∈ p.platforms then
        p.platforms.filter (fun q => q ≠ platformId)
      else p.platforms ++ [platformId] }

/-- The location input's `onChange` (JobDiscovery.js line 144). -/
def setLocation (p : SearchParams) (v : String) : SearchParams :=
  { p with location := v }

/-- The job-type select's `onChange` (JobDiscovery.js line 155). -/
def setJobType (p : SearchParams) (v : String) : SearchParams :=
  { p with jobType := v }

/-- The max-results number input's `onChange` (JobDiscovery.js lines 201-204):
`parseInt(e.target.value) || 50`, i.e. 50 when the parse is NaN or 0,
the parsed value otherwise.  The `min`/`max` HTML attributes are advisory
and impose nothing on typed values, so they do not appear here. -/
def setMaxResults (p : SearchParams) (v : String) : SearchParams :=
  { p with maxResultsPerPlatform :=
      match jsParseInt v with
      | none => 50
      | some 0 => 50
      | some n => n }

/-- Body of `POST /api/jobs/search` as assembled by `handleSearch`
(JobDiscovery.js lines 60-66). -/
structure SearchRequestBody where
  keywords : List String
  location : String
  job_type : String
  platforms : Option (List String)
  max_results_per_platform : Int
deriving Repr, DecidableEq

/-- `searchData` built inside `handleSearch` (JobDiscovery.js lines 60-66):
`platforms` is `null` exactly when the selection is empty. -/
def mkSearchData (p : SearchParams) : SearchRequestBody :=
  { keywords := p.keywords
    location := p.location
    job_type := p.jobType
    platforms := if p.platforms.length > 0 then some p.platforms else none
    max_results_per_platform := p.maxResultsPerPlatform }

/-- The search button's `disabled` expression
(JobDiscovery.js line 214): `isSearching || searchParams.keywords.length === 0`.
The button's `onClick` is the only caller of `handleSearch`, so a request is
issued only from a state in which this is `false`. -/
def searchButtonDisabled (isSearching : Bool) (p : SearchParams) : Bool :=
  isSearching || p.keywords.length == 0

/-! ### JobList (src/unnamed/part_002) — `fetchJobs` query parameters -/

/-- The query parameters assembled by `fetchJobs` (part_002 lines 25-28):
`source` is appended when truthy (non-empty string), `applied` when it is not
the empty string, `limit` always. -/
def fetchJobsParams (source applied : String) (limit : Nat) :
    List (String × String) :=
  (if source ≠ "" then [("source", source)] else []) ++
    (if applied ≠ "" then [("applied", applied)] else []) ++
    [("limit", toString limit)]

/-! ### Profile (src/unnamed/part_000) — `updateArrayField`

The form data is a map from field names to JS values; the fields edited by
`updateArrayField` hold arrays of strings, the others plain strings. -/

inductive FieldVal where
  | str : String → FieldVal
  | arr : List String → FieldVal
deriving Repr, DecidableEq

/-- `newArray.splice(index, 1)` on a copied array: remove one element at
`index` (no element when `index` is past the end, as in JS). -/
def jsSplice1 (l : List String) (index : Nat) : List String :=
  l.take index ++ l.drop (index + 1)

/-- `updateArrayField` (part_000 lines 60-68): copy the field's array, remove
the element at `index` when `value` is the empty string, otherwise assign
`value` at `index`, and store the new array back under `field` leaving every
other field alone.  The source only ever calls this on array-valued fields
with an in-bounds index; on a string-valued field the map is returned
unchanged here, and the in-bounds assumption appears as a hypothesis where
it matters. -/
def updateArrayField (m : String → FieldVal) (field : String) (index : Nat)
    (value : String) : String → FieldVal :=
  match m field with
  | .arr l =>
      let newArray := if value = "" then jsSplice1 l index else l.set index value
      fun f => if f = field then .arr newArray else m f
  | .str _ => m

/-! ### Analytics (src/unnamed/part_001) — dashboard rate computations -/

/-- The `metrics` object of the dashboard payload; fields may be absent
(`undefined`), which the component defaults to 0 with `|| 0`. -/
structure Metrics where
  total_applications : Option Nat
  interviewing : Option Nat
  rejected : Option Nat
  pending_applications : Option Nat
deriving Repr, DecidableEq

/-- JS `x || 0` on a possibly-absent count. -/
def jsOr0 (x : Option Nat) : Nat := x.getD 0

/-- `totalApplications` (part_001 line 68). -/
def totalApplications (m : Metrics) : Nat := jsOr0 m.total_applications

/-- `interviewRate` (part_001 line 69). -/
def interviewRate (m : Metrics) : ℚ :=
  if totalApplications m > 0 then
    (jsOr0 m.interviewing : ℚ) / (totalApplications m : ℚ) * 100
  else 0

/-- `rejectionRate` (part_001 line 70). -/
def rejectionRate (m : Metrics) : ℚ :=
  if totalApplications m > 0 then
    (jsOr0 m.rejected : ℚ) / (totalApplications m : ℚ) * 100
  else 0

/-- `pendingRate` (part_001 line 71). -/
def pendingRate (m : Metrics) : ℚ :=
  if totalApplications m > 0 then
    (jsOr0 m.pending_applications : ℚ) / (totalApplications m : ℚ) * 100
  else 0

/-- An entry of the email log list, restricted to the field the rate
computation reads. -/
structure EmailLogEntry where
  status : String
deriving Repr, DecidableEq

/-- `sentEmails` (part_001 line 74). -/
def sentEmails (logs : List EmailLogEntry) : Nat :=
  (logs.filter (fun log => log.status = "sent")).length

/-- `emailSuccessRate` (part_001 line 76). -/
def emailSuccessRate (logs : List EmailLogEntry) : ℚ :=
  if logs.length > 0 then
    (sentEmails logs : ℚ) / (logs.length : ℚ) * 100
  else 0

/-! ### API base address and request URLs

Every module opens with
`const BACKEND_URL = process.env.REACT_APP_BACKEND_URL;`
`const API = backendUrl + "/api";`
and builds each request URL from `API`.  The environment value is a
parameter of the embedding. -/

/-- The per-module constant `API` as a function of the environment-provided
backend URL. -/
def apiBase (backendUrl : String) : String := backendUrl ++ "/api"

/-- Every request URL the client issues, with its path parameters and query
strings abstracted, in source order: App.js health probe; JobDiscovery
search; JobList list/delete and apply flow; Applications list, status update
and email send; CoverLetters list, unapplied-jobs query and generate;
Profile get/put; Analytics dashboard and email logs. -/
def requestUrls (backendUrl jobId applicationId jobsQuery applicationsQuery :
    String) : List String :=
  [apiBase backendUrl ++ "/health",
    apiBase backendUrl ++ "/jobs/search",
    apiBase backendUrl ++ "/jobs?" ++ jobsQuery,
    apiBase backendUrl ++ "/cover-letters/generate",
    apiBase backendUrl ++ "/applications",
    apiBase backendUrl ++ "/jobs/" ++ jobId,
    apiBase backendUrl ++ "/applications?" ++ applicationsQuery,
    apiBase backendUrl ++ "/applications/" ++ applicationId ++ "/status",
    apiBase backendUrl ++ "/emails/send-application",
    apiBase backendUrl ++ "/cover-letters",
    apiBase backendUrl ++ "/jobs?applied=false&limit=20",
    apiBase backendUrl ++ "/profile",
    apiBase backendUrl ++ "/analytics/dashboard",
    apiBase backendUrl ++ "/emails/logs"]

/-! ### Spec-modelled backend fragments

The repository snapshot holds only the web client; the Discovery
Orchestrator and the Relevance Scorer live in the backend that is not under
src/, so they are modelled from the spec. -/

inductive ApiError where
  | validationError
  | notFoundError
deriving Repr, DecidableEq

/-- Modelled from the spec: the Discovery Orchestrator's `StartSearch`
validation (spec §4.1), absent from the repository snapshot. "Rejects with
ValidationError if keywords is empty"; otherwise the request is accepted and
handled asynchronously, which this model abstracts to acceptance. -/
def startSearchValidation (req : SearchRequestBody) : Except ApiError Unit :=
  if req.keywords = [] then .error .validationError else .ok ()

/-- Case-insensitive substring test: does `kw` appear in `text` after
lowering both? -/
def appearsIn (text kw : String) : Bool :=
  decide ((kw.data.map Char.toLower) <:+: (text.data.map Char.toLower))

/-- Modelled from the spec: the Relevance Scorer's matched-keyword list
(spec §4.2), absent from the repository snapshot — the distinct profile
keywords appearing as case-insensitive substrings of the job text, in the
order the profile supplied them. -/
def scoreMatched (jobText : String) (profileKeywords : List String) :
    List String :=
  profileKeywords.dedup.filter (fun kw => appearsIn jobText kw)

/-- Modelled from the spec: the Relevance Scorer's score (spec §4.2), absent
from the repository snapshot — count of distinct matched profile keywords
over count of profile keywords, capped at 1.0, and 0 when the profile has no
keywords. -/
def score (jobText : String) (profileKeywords : List String) : ℚ :=
  let ks := profileKeywords.dedup
  if ks.length = 0 then 0
  else min 1 ((scoreMatched jobText profileKeywords).length / (ks.length : ℚ))

/-! ## Helper lemmas -/

/-- String append acts as append on the underlying character lists. -/
theorem data_append (a t : String) : (a ++ t).data = a.data ++ t.data := rfl

/-- A string is a chunk-prefix of what it is appended with. -/
def strIsPre (a b : String) : Prop := ∃ t, a ++ t = b

theorem strIsPre_append (a t : String) : strIsPre a (a ++ t) := ⟨t, rfl⟩

theorem strIsPre_append_right {a b : String} (h : strIsPre a b) (t : String) :
    strIsPre a (b ++ t) := by
  obtain ⟨u, rfl⟩ := h
  exact ⟨u ++ t, (String.append_assoc a u t).symm⟩

/-! ## Claim theorems -/

/-- Claim C3: for every submitted search request the `platforms` field of the
request body is `null` exactly when the user selected zero platforms, and
otherwise equals the list of selected platform ids. -/
theorem searchData_platforms_null_iff_empty (p : SearchParams) :
    ((mkSearchData p).platforms = none ↔ p.platforms = []) ∧
      (p.platforms ≠ [] → (mkSearchData p).platforms = some p.platforms) := by
  by_cases h : p.platforms = [] <;>
    simp [mkSearchData, h, List.length_pos]

/-- Concrete instance of C3: the initial empty selection sends `null`, a
one-platform selection is sent as-is. -/
theorem searchData_platforms_null_iff_empty_witness :
    (mkSearchData initialSearchParams).platforms = none ∧
      (mkSearchData { initialSearchParams with
          platforms := ["remotive"] }).platforms = some ["remotive"] :=
  ⟨(searchData_platforms_null_iff_empty initialSearchParams).1.mpr rfl,
    (searchData_platforms_null_iff_empty
      { initialSearchParams with platforms := ["remotive"] }).2 (by decide)⟩

/-- Claim C6: the job-list query string carries `source` iff the source
filter is non-empty, `applied` iff the applied filter is not the empty
string, and always carries `limit`. -/
theorem fetchJobs_query_keys (source applied : String) (limit : Nat) :
    ("source" ∈ (fetchJobsParams source applied limit).map Prod.fst ↔
        source ≠ "") ∧
      ("applied" ∈ (fetchJobsParams source applied limit).map Prod.fst ↔
        applied ≠ "") ∧
      "limit" ∈ (fetchJobsParams source applied limit).map Prod.fst := by
  by_cases hs : source = "" <;> by_cases ha : applied = "" <;>
    simp [fetchJobsParams, hs, ha]

/-- Concrete instance of C6 at an empty source filter, the applied filter
set to "false" and limit 50. -/
theorem fetchJobs_query_keys_witness :
    ("source" ∈ (fetchJobsParams "" "false" 50).map Prod.fst ↔
        ("" : String) ≠ "") ∧
      ("applied" ∈ (fetchJobsParams "" "false" 50).map Prod.fst ↔
        ("false" : String) ≠ "") ∧
      "limit" ∈ (fetchJobsParams "" "false" 50).map Prod.fst :=
  fetchJobs_query_keys "" "false" 50

/-- Claim C7: every request URL the client issues extends the per-module
constant `API`, itself the environment-provided backend URL followed by
"/api"; no URL embeds a hard-coded host. -/
theorem request_urls_from_environment
    (backendUrl jobId applicationId jobsQuery applicationsQuery : String) :
    apiBase backendUrl = backendUrl ++ "/api" ∧
      ∀ url ∈ requestUrls backendUrl jobId applicationId jobsQuery
          applicationsQuery,
        strIsPre backendUrl url ∧ strIsPre (apiBase backendUrl) url := by
  refine ⟨rfl, ?_⟩
  intro url hurl
  simp only [requestUrls, List.mem_cons, List.not_mem_nil, or_false] at hurl
  simp only [apiBase] at hurl ⊢
  rcases hurl with rfl | rfl | rfl | rfl | rfl | rfl | rfl | rfl | rfl | rfl |
    rfl | rfl | rfl | rfl <;>
    constructor <;>
    first
      | exact strIsPre_append _ _
      | exact strIsPre_append_right (strIsPre_append _ _) _
      | exact strIsPre_append_right
          (strIsPre_append_right (strIsPre_append _ _) _) _
      | exact strIsPre_append_right (strIsPre_append_right
          (strIsPre_append_right (strIsPre_append _ _) _) _) _

/-- Concrete instance of C7: the search endpoint URL for a concrete backend
address starts with that address. -/
theorem request_urls_from_environment_witness :
    strIsPre "http://localhost:8001"
      (apiBase "http://localhost:8001" ++ "/jobs/search") :=
  ((request_urls_from_environment "http://localhost:8001" "j1" "a1" "q1"
      "q2").2 (apiBase "http://localhost:8001" ++ "/jobs/search")
    (by decide)).1

/-- Claim C2 counterexample: typing "5" into the max-results input and
submitting sends `max_results_per_platform = 5`, outside [10,100] — the
HTML `min`/`max` attributes do not constrain typed values and `handleSearch`
does not clamp. -/
theorem maxResults_out_of_range_cex :
    (mkSearchData (setMaxResults initialSearchParams
        "5")).max_results_per_platform = 5 ∧
      ¬ (10 ≤ (mkSearchData (setMaxResults initialSearchParams
            "5")).max_results_per_platform ∧
          (mkSearchData (setMaxResults initialSearchParams
            "5")).max_results_per_platform ≤ 100) := by
  decide

/-- Claim C2 amended: the submitted `max_results_per_platform` is always a
nonzero integer; it is 50 when the typed text does not parse to a nonzero
integer (so in particular at the initial state), and otherwise exactly the
parsed integer, which is submitted unchanged even when it lies outside
[10,100]. -/
theorem maxResults_parse_or_default (p : SearchParams) (v : String) :
    (mkSearchData (setMaxResults p v)).max_results_per_platform ≠ 0 ∧
      (jsParseInt v = none ∨ jsParseInt v = some 0 →
        (mkSearchData (setMaxResults p v)).max_results_per_platform = 50) ∧
      (∀ n : Int, jsParseInt v = some n → n ≠ 0 →
        (mkSearchData (setMaxResults p v)).max_results_per_platform = n) := by
  refine ⟨?_, ?_, ?_⟩
  · rcases h : jsParseInt v with _ | n
    · simp [mkSearchData, setMaxResults, h]
    · by_cases hn : n = 0 <;> simp [mkSearchData, setMaxResults, h, hn]
  · rintro (h | h) <;> simp [mkSearchData, setMaxResults, h]
  · intro n h hn
    simp [mkSearchData, setMaxResults, h, hn]

/-- Concrete instance of the amended C2: "5" is submitted as 5, "abc" falls
back to 50. -/
theorem maxResults_parse_or_default_witness :
    (mkSearchData (setMaxResults initialSearchParams
        "5")).max_results_per_platform = 5 ∧
      (mkSearchData (setMaxResults initialSearchParams
        "abc")).max_results_per_platform = 50 :=
  ⟨(maxResults_parse_or_default initialSearchParams "5").2.2 5 (by decide)
      (by decide),
    (maxResults_parse_or_default initialSearchParams "abc").2.1
      (Or.inl (by decide))⟩

/-- Claim C8 counterexample: toggling "remotive" twice on the duplicate-free
selection ["flexjobs", "remotive", "toptal"] does not return the original
value — the id is removed and then re-appended at the end. -/
theorem platformToggle_twice_cex :
    handlePlatformToggle (handlePlatformToggle
        { initialSearchParams with
          platforms := ["flexjobs", "remotive", "toptal"] } "remotive")
        "remotive" ≠
      { initialSearchParams with
        platforms := ["flexjobs", "remotive", "toptal"] } ∧
      (handlePlatformToggle (handlePlatformToggle
          { initialSearchParams with
            platforms := ["flexjobs", "remotive", "toptal"] } "remotive")
          "remotive").platforms = ["flexjobs", "toptal", "remotive"] := by
  decide

/-- Claim C8 amended: on a duplicate-free selection a single toggle appends
the id when absent and removes it when present, the selection stays
duplicate-free, and toggling twice restores the original selection as a set
(exactly the original list when the id was absent; when it was present the
id moves to the end). -/
theorem platformToggle_set_involution (p : SearchParams) (pid : String)
    (h : p.platforms.Nodup) :
    (pid ∉ p.platforms →
        handlePlatformToggle p pid =
          { p with platforms := p.platforms ++ [pid] } ∧
        handlePlatformToggle (handlePlatformToggle p pid) pid = p) ∧
      (pid ∈ p.platforms →
        (handlePlatformToggle p pid).platforms =
          p.platforms.filter (fun q => q ≠ pid)) ∧
      (handlePlatformToggle p pid).platforms.Nodup ∧
      (∀ q, q ∈ (handlePlatformToggle (handlePlatformToggle p pid)
          pid).platforms ↔ q ∈ p.platforms) := by
  have hfilt : ∀ l : List String, pid ∉ l →
      l.filter (fun q => q ≠ pid) = l := by
    intro l hl
    refine List.filter_eq_self.mpr fun a ha => ?_
    have hne : a ≠ pid := fun he => hl (he ▸ ha)
    simp [hne]
  have hback : pid ∉ p.platforms →
      handlePlatformToggle (handlePlatformToggle p pid) pid = p := by
    intro hmem
    have h1 : handlePlatformToggle p pid =
        { p with platforms := p.platforms ++ [pid] } := by
      simp [handlePlatformToggle, hmem]
    rw [h1]
    have h2 : pid ∈ p.platforms ++ [pid] := by simp
    simp only [handlePlatformToggle, h2, if_pos]
    have h3 : (p.platforms ++ [pid]).filter (fun q => q ≠ pid) =
        p.platforms := by
      rw [List.filter_append, hfilt _ hmem]
      simp
    rw [h3]
  refine ⟨?_, ?_, ?_, ?_⟩
  · intro hmem
    exact ⟨by simp [handlePlatformToggle, hmem], hback hmem⟩
  · intro hmem
    simp [handlePlatformToggle, hmem]
  · by_cases hmem : pid ∈ p.platforms
    · simp only [handlePlatformToggle, hmem, if_pos]
      exact h.filter _
    · simp only [handlePlatformToggle, hmem, if_neg, not_false_iff]
      rw [List.nodup_append]
      exact ⟨h, List.nodup_singleton pid,
        fun a ha hb => hmem (List.mem_singleton.mp hb ▸ ha)⟩
  · intro q
    by_cases hmem : pid ∈ p.platforms
    · set X := handlePlatformToggle p pid with hX
      have h1 : X.platforms = p.platforms.filter (fun x => x ≠ pid) := by
        rw [hX]
        simp [handlePlatformToggle, hmem]
      have h2 : pid ∉ X.platforms := by
        rw [h1]
        simp
      have h3 : (handlePlatformToggle X pid).platforms =
          X.platforms ++ [pid] := by
        simp [handlePlatformToggle, h2]
      rw [h3, h1]
      simp only [List.mem_append, List.mem_filter, List.mem_singleton,
        ne_eq, decide_not, Bool.not_eq_false', decide_eq_true_eq]
      constructor
      · rintro (⟨hq, _⟩ | rfl)
        · exact hq
        · exact hmem
      · intro hq
        by_cases hqp : q = pid
        · exact Or.inr hqp
        · exact Or.inl ⟨hq, by simpa using hqp⟩
    · rw [hback hmem]

/-- Concrete instance of the amended C8: toggling "remotive" on and off the
empty selection restores it, and toggling it twice on a selection containing
it preserves the member set. -/
theorem platformToggle_set_involution_witness :
    handlePlatformToggle (handlePlatformToggle initialSearchParams
        "remotive") "remotive" = initialSearchParams ∧
      ∀ q, q ∈ (handlePlatformToggle (handlePlatformToggle
          { initialSearchParams with
            platforms := ["flexjobs", "remotive", "toptal"] } "remotive")
          "remotive").platforms ↔
        q ∈ ["flexjobs", "remotive", "toptal"] :=
  ⟨((platformToggle_set_involution initialSearchParams "remotive"
        (by decide)).1 (by decide)).2,
    (platformToggle_set_involution
      { initialSearchParams with
        platforms := ["flexjobs", "remotive", "toptal"] } "remotive"
      (by decide)).2.2.2⟩

/-- Claim C1: the orchestrator rejects an empty keyword set with a
ValidationError, and on the client every form state with an empty keyword
list has the search button disabled, so every request body actually issued
carries a non-empty keywords list. -/
theorem emptyKeywords_rejected_and_unsubmittable :
    (∀ req : SearchRequestBody, req.keywords = [] →
        startSearchValidation req = .error .validationError) ∧
      (∀ (searching : Bool) (p : SearchParams), p.keywords = [] →
        searchButtonDisabled searching p = true) ∧
      (∀ (searching : Bool) (p : SearchParams),
        searchButtonDisabled searching p = false →
          (mkSearchData p).keywords ≠ []) := by
  refine ⟨fun req h => ?_, fun searching p h => ?_, fun searching p h => ?_⟩
  · simp [startSearchValidation, h]
  · simp [searchButtonDisabled, h]
  · simp only [searchButtonDisabled, Bool.or_eq_false_iff, beq_eq_false_iff_ne,
      ne_eq] at h
    intro hk
    exact h.2 (by simp [mkSearchData] at hk; simp [hk])

/-- Concrete instance of C1: an empty-keyword body is rejected, the
empty-keyword form state has the button disabled, and the enabled initial
state submits its non-empty keywords. -/
theorem emptyKeywords_rejected_and_unsubmittable_witness :
    startSearchValidation (mkSearchData { initialSearchParams with
        keywords := [] }) = .error .validationError ∧
      searchButtonDisabled false { initialSearchParams with keywords := [] } =
        true ∧
      (mkSearchData initialSearchParams).keywords ≠ [] :=
  ⟨emptyKeywords_rejected_and_unsubmittable.1 _ rfl,
    emptyKeywords_rejected_and_unsubmittable.2.1 false _ rfl,
    emptyKeywords_rejected_and_unsubmittable.2.2 false initialSearchParams
      (by decide)⟩

/-- Claim C4: the relevance score is in [0,1]; a profile with zero keywords
yields score 0 and an empty matched list; the matched list is in
profile-supplied order (a sublist of the deduplicated profile keywords). -/
theorem score_bounds_and_empty_profile (jobText : String)
    (profileKeywords : List String) :
    0 ≤ score jobText profileKeywords ∧
      score jobText profileKeywords ≤ 1 ∧
      (profileKeywords = [] → score jobText profileKeywords = 0 ∧
        scoreMatched jobText profileKeywords = []) ∧
      List.Sublist (scoreMatched jobText profileKeywords)
        profileKeywords.dedup := by
  refine ⟨?_, ?_, ?_, List.filter_sublist _⟩
  · unfold score
    by_cases h : profileKeywords.dedup.length = 0
    · simp [h]
    · simp only [h, if_false]
      refine le_min (by norm_num) ?_
      positivity
  · unfold score
    by_cases h : profileKeywords.dedup.length = 0
    · simp [h]
    · simp only [h, if_false]
      exact min_le_left _ _
  · rintro rfl
    exact ⟨by simp [score], by simp [scoreMatched]⟩

/-- Concrete instance of C4 at a two-keyword profile and at the empty
profile. -/
theorem score_bounds_and_empty_profile_witness :
    0 ≤ score "Senior ML engineer" ["ML", "rust"] ∧
      score "Senior ML engineer" ["ML", "rust"] ≤ 1 ∧
      score "Senior ML engineer" [] = 0 ∧
      scoreMatched "Senior ML engineer" [] = [] :=
  ⟨(score_bounds_and_empty_profile "Senior ML engineer" ["ML", "rust"]).1,
    (score_bounds_and_empty_profile "Senior ML engineer" ["ML", "rust"]).2.1,
    ((score_bounds_and_empty_profile "Senior ML engineer" []).2.2.1 rfl).1,
    ((score_bounds_and_empty_profile "Senior ML engineer" []).2.2.1 rfl).2⟩

/-- Claim C9: with an in-bounds index on an array-valued field, an empty
value removes exactly the element at that index (earlier elements keep
their position, later ones shift down one), a non-empty value replaces
exactly that element, and every other field of the form data is unchanged. -/
theorem updateArrayField_frame (m : String → FieldVal) (field : String)
    (l : List String) (index : Nat) (value : String)
    (hf : m field = .arr l) (hidx : index < l.length) :
    (value = "" →
        updateArrayField m field index value field =
          .arr (l.eraseIdx index) ∧
        (l.eraseIdx index).length + 1 = l.length ∧
        (∀ j, j < index → (l.eraseIdx index)[j]? = l[j]?) ∧
        (∀ j, index ≤ j → (l.eraseIdx index)[j]? = l[j + 1]?)) ∧
      (value ≠ "" →
        updateArrayField m field index value field = .arr (l.set index value) ∧
        (l.set index value)[index]? = some value ∧
        (∀ j, j ≠ index → (l.set index value)[j]? = l[j]?)) ∧
      (∀ f, f ≠ field → updateArrayField m field index value f = m f) := by
  have hsplice : jsSplice1 l index = l.eraseIdx index :=
    (List.eraseIdx_eq_take_drop_succ ..).symm
  refine ⟨fun hv => ?_, fun hv => ?_, fun f hne => ?_⟩
  · refine ⟨?_, ?_, fun j hj => List.getElem?_eraseIdx_of_lt l index j hj,
      fun j hj => List.getElem?_eraseIdx_of_ge l index j hj⟩
    · simp [updateArrayField, hf, hv, hsplice]
    · rw [List.length_eraseIdx_of_lt hidx]
      omega
  · refine ⟨?_, List.getElem?_set_self (by simpa using hidx),
      fun j hj => List.getElem?_set_ne (Ne.symm hj)⟩
    simp [updateArrayField, hf, hv]
  · simp [updateArrayField, hf, hne]

/-- Concrete instance of C9: on the field map with skills = ["a","b","c"],
clearing index 1 leaves ["a","c"], writing "z" at index 1 leaves
["a","z","c"], and the bio field is untouched. -/
theorem updateArrayField_frame_witness :
    updateArrayField (fun f => if f = "skills" then .arr ["a", "b", "c"]
        else .str "bio text") "skills" 1 "" "skills" = .arr ["a", "c"] ∧
      updateArrayField (fun f => if f = "skills" then .arr ["a", "b", "c"]
        else .str "bio text") "skills" 1 "z" "skills" =
        .arr ["a", "z", "c"] ∧
      updateArrayField (fun f => if f = "skills" then .arr ["a", "b", "c"]
        else .str "bio text") "skills" 1 "z" "bio" = .str "bio text" := by
  refine ⟨?_, ?_, ?_⟩
  · rw [((updateArrayField_frame
      (fun f => if f = "skills" then .arr ["a", "b", "c"] else .str "bio text")
      "skills" ["a", "b", "c"] 1 "" (by decide) (by decide)).1 rfl).1]
    decide
  · rw [((updateArrayField_frame
      (fun f => if f = "skills" then .arr ["a", "b", "c"] else .str "bio text")
      "skills" ["a", "b", "c"] 1 "z" (by decide) (by decide)).2.1
        (by decide)).1]
    decide
  · rw [(updateArrayField_frame
      (fun f => if f = "skills" then .arr ["a", "b", "c"] else .str "bio text")
      "skills" ["a", "b", "c"] 1 "z" (by decide) (by decide)).2.2 "bio"
        (by decide)]
    decide

/-- A guarded percentage is 0 when the total is 0 and lies in [0,100] when
the count is at most the total. -/
theorem guardedRate_bounds (c t : Nat) (h : c ≤ t) :
    0 ≤ (if t > 0 then (c : ℚ) / (t : ℚ) * 100 else 0) ∧
      (if t > 0 then (c : ℚ) / (t : ℚ) * 100 else 0) ≤ 100 := by
  by_cases ht : t > 0
  · simp only [ht, if_true]
    have htq : (0 : ℚ) < t := by exact_mod_cast ht
    constructor
    · positivity
    · have hle : (c : ℚ) / t ≤ 1 := by
        rw [div_le_one htq]
        exact_mod_cast h
      calc (c : ℚ) / t * 100 ≤ 1 * 100 :=
            mul_le_mul_of_nonneg_right hle (by norm_num)
        _ = 100 := by norm_num
  · simp [ht]

/-- Claim C10: the dashboard rate computations never divide by zero — each
rate is 0 when its denominator is 0 — and under the precondition that each
count is at most its total, every rate lies in [0,100] (the email success
rate needs no precondition: sent emails are a sublist of the log). -/
theorem analytics_rates_guarded (m : Metrics) (logs : List EmailLogEntry)
    (hi : jsOr0 m.interviewing ≤ totalApplications m)
    (hr : jsOr0 m.rejected ≤ totalApplications m)
    (hp : jsOr0 m.pending_applications ≤ totalApplications m) :
    (totalApplications m = 0 →
        interviewRate m = 0 ∧ rejectionRate m = 0 ∧ pendingRate m = 0) ∧
      (logs.length = 0 → emailSuccessRate logs = 0) ∧
      (0 ≤ interviewRate m ∧ interviewRate m ≤ 100) ∧
      (0 ≤ rejectionRate m ∧ rejectionRate m ≤ 100) ∧
      (0 ≤ pendingRate m ∧ pendingRate m ≤ 100) ∧
      (0 ≤ emailSuccessRate logs ∧ emailSuccessRate logs ≤ 100) := by
  refine ⟨fun h0 => ?_, fun h0 => ?_, ?_, ?_, ?_, ?_⟩
  · simp [interviewRate, rejectionRate, pendingRate, h0]
  · simp [emailSuccessRate, h0]
  · exact guardedRate_bounds _ _ hi
  · exact guardedRate_bounds _ _ hr
  · exact guardedRate_bounds _ _ hp
  · exact guardedRate_bounds _ _ (List.length_filter_le _ logs)

/-- Concrete instance of C10 at four applications (one interviewing, two
rejected, one pending) and a two-entry email log with one delivery. -/
theorem analytics_rates_guarded_witness :
    (0 ≤ interviewRate ⟨some 4, some 1, some 2, some 1⟩ ∧
        interviewRate ⟨some 4, some 1, some 2, some 1⟩ ≤ 100) ∧
      (0 ≤ emailSuccessRate [⟨"sent"⟩, ⟨"failed"⟩] ∧
        emailSuccessRate [⟨"sent"⟩, ⟨"failed"⟩] ≤ 100) :=
  ⟨(analytics_rates_guarded ⟨some 4, some 1, some 2, some 1⟩
      [⟨"sent"⟩, ⟨"failed"⟩] (by decide) (by decide) (by decide)).2.2.1,
    (analytics_rates_guarded ⟨some 4, some 1, some 2, some 1⟩
      [⟨"sent"⟩, ⟨"failed"⟩] (by decide) (by decide) (by decide)).2.2.2.2.2⟩

/-- Trimming a character list twice is the same as trimming it once. -/
theorem trimChars_idem (l : List Char) :
    trimChars (trimChars l) = trimChars l := by
  unfold trimChars
  have ha : List.dropWhile isJsWs (List.dropWhile isJsWs l) =
      List.dropWhile isJsWs l := List.dropWhile_idempotent isJsWs l
  have hb : List.dropWhile isJsWs
      (List.rdropWhile isJsWs (List.dropWhile isJsWs l)) =
      List.rdropWhile isJsWs (List.dropWhile isJsWs l) := by
    rw [List.dropWhile_eq_self_iff]
    intro hl hp
    have hpre : List.IsPrefix
        (List.rdropWhile isJsWs (List.dropWhile isJsWs l))
        (List.dropWhile isJsWs l) := List.rdropWhile_prefix _ _
    rw [List.dropWhile_eq_self_iff] at ha
    rw [List.get_eq_getElem, hpre.getElem hl] at hp
    exact ha (lt_of_lt_of_le hl hpre.length_le)
      (by rw [List.get_eq_getElem]; exact hp)
  rw [hb, List.rdropWhile_idempotent]

/-- JS string trimming is idempotent. -/
theorem jsTrim_idem (s : String) : jsTrim (jsTrim s) = jsTrim s :=
  congrArg String.mk (trimChars_idem s.data)

/-- The invariant of the form's keyword list: duplicate-free, and every
entry is a non-blank string fixed by trimming. -/
def keywordsWellFormed (ks : List String) : Prop :=
  ks.Nodup ∧ ∀ k ∈ ks, jsTrim k = k ∧ k ≠ ""

instance keywordsWellFormedDec (ks : List String) :
    Decidable (keywordsWellFormed ks) := by
  unfold keywordsWellFormed
  infer_instance

/-- Claim C5: the keyword list of the Job Discovery form is always a
duplicate-free list of non-blank trimmed strings: the invariant holds of
the initial state, is preserved by adding and removing keywords, and no
other form operation touches the list. -/
theorem keyword_list_invariant (p : SearchParams)
    (nk kw pid loc jt v : String) (h : keywordsWellFormed p.keywords) :
    keywordsWellFormed initialSearchParams.keywords ∧
      keywordsWellFormed (handleKeywordAdd p nk).keywords ∧
      keywordsWellFormed (handleKeywordRemove p kw).keywords ∧
      (handlePlatformToggle p pid).keywords = p.keywords ∧
      (setLocation p loc).keywords = p.keywords ∧
      (setJobType p jt).keywords = p.keywords ∧
      (setMaxResults p v).keywords = p.keywords := by
  refine ⟨by decide, ?_, ?_, rfl, rfl, rfl, rfl⟩
  · unfold handleKeywordAdd
    by_cases hc : jsTrim nk ≠ "" ∧ ¬ jsTrim nk ∈ p.keywords
    · rw [if_pos hc]
      refine ⟨?_, ?_⟩
      · rw [List.nodup_append]
        exact ⟨h.1, List.nodup_singleton _,
          fun a ha hb => hc.2 (List.mem_singleton.mp hb ▸ ha)⟩
      · intro k hk
        rcases List.mem_append.mp hk with hk | hk
        · exact h.2 k hk
        · rw [List.mem_singleton.mp hk]
          exact ⟨jsTrim_idem nk, hc.1⟩
    · rw [if_neg hc]
      exact h
  · refine ⟨h.1.filter _, fun k hk => h.2 k (List.mem_of_mem_filter hk)⟩

/-- Concrete instance of C5: the initial list is well-formed and stays so
after adding the keyword " NLP " (stored trimmed) and after removing
"AI". -/
theorem keyword_list_invariant_witness :
    keywordsWellFormed (handleKeywordAdd initialSearchParams " NLP ").keywords ∧
      keywordsWellFormed
        (handleKeywordRemove initialSearchParams "AI").keywords :=
  ⟨(keyword_list_invariant initialSearchParams " NLP " "AI" "remotive" ""
      "remote" "50" (by decide)).2.1,
    (keyword_list_invariant initialSearchParams " NLP " "AI" "remotive" ""
      "remote" "50" (by decide)).2.2.1⟩

end Azazel
